import Mathlib

/-!
Shallow embedding of the multi-provider AI generation core of the
amz_content_plugin repository: the JSON-extraction and prose-cleaning
heuristics of `ai_generator.py`, the provider router of
`unified_ai_client.py`, the parallel batch collector, the keyword
classifier, the batched review generator with its fallback synthesizer,
the category selector, and the rotating-key backend of
`cerebras_client.py`.  Strings are modelled as lists of characters;
Python's `re`-based helpers are transcribed as executable functions.
Character classes are transcribed for the ASCII range that the
program's prompts and responses use.
-/

namespace AmzPlugin

/-- Python whitespace characters recognised by `str.strip()` and `\s`
(ASCII range). -/
def isPyWs (c : Char) : Bool :=
  c == ' ' || c == '\t' || c == '\n' || c == '\r' || c == '\x0b' || c == '\x0c'

/-- Strip characters satisfying `p` from the left end of a list. -/
def stripLeft (p : Char → Bool) (l : List Char) : List Char :=
  l.dropWhile p

/-- Strip characters satisfying `p` from both ends, as Python's
`str.strip` family does. -/
def stripBoth (p : Char → Bool) (l : List Char) : List Char :=
  ((l.dropWhile p).reverse.dropWhile p).reverse

/-- Python `str.strip()` with no argument (whitespace strip). -/
def pyStrip (l : List Char) : List Char :=
  stripBoth isPyWs l

/-- Python `str.strip(chars)`: strip any of the given characters from
both ends. -/
def stripChars (set : List Char) (l : List Char) : List Char :=
  stripBoth (fun c => set.contains c) l

/-- Boolean prefix test on character lists (`str.startswith`). -/
def leadsWith : List Char → List Char → Bool
  | [], _ => true
  | _ :: _, [] => false
  | p :: ps, x :: xs => p == x && leadsWith ps xs

/-- Boolean suffix test on character lists (`str.endswith`). -/
def endsWith (pat l : List Char) : Bool :=
  leadsWith pat.reverse l.reverse

/-- Python `str.find(ch)`: index of the first occurrence, `-1` when
absent. -/
def findChar : List Char → Char → Int
  | [], _ => -1
  | x :: r, c =>
    if x = c then 0
    else
      let t := findChar r c
      if t = -1 then -1 else t + 1

/-- Python `str.rfind(ch)`: index of the last occurrence, `-1` when
absent. -/
def rfindChar : List Char → Char → Int
  | [], _ => -1
  | x :: r, c =>
    let t := rfindChar r c
    if t = -1 then (if x = c then 0 else -1) else t + 1

/-- Python slice `l[a:b]`. -/
def sliceL (l : List Char) (a b : Nat) : List Char :=
  (l.drop a).take (b - a)

/-- After the opening fence token of `^```(?:json)?\s*` the optional
`json` tag is consumed; this is the remainder from which the trailing
whitespace of the match is then taken. -/
def fenceOpenRest (l : List Char) : List Char :=
  if leadsWith ("json".data) (l.drop 3) then (l.drop 3).drop 4 else l.drop 3

/-- One pass of `re.sub(r'^```(?:json)?\s*', '', text, flags=re.MULTILINE)`:
at each line start, an opening code fence (optionally tagged `json`)
and the whitespace after it are deleted; scanning resumes after the
deleted span, whose final character determines whether the next
position is again a line start.  Every step consumes at least one
character, so fuel one above the input length never runs out; the
fuel-exhaustion branch is unreachable. -/
def subFenceOpenGo (fuel : Nat) (atLineStart : Bool) (l : List Char) : List Char :=
  match fuel with
  | 0 => l
  | fuel + 1 =>
    if atLineStart ∧ leadsWith ("```".data) l then
      subFenceOpenGo fuel
        (decide ((fenceOpenRest l).takeWhile isPyWs ≠ [] ∧
          ((fenceOpenRest l).takeWhile isPyWs).getLast? = some '\n'))
        ((fenceOpenRest l).dropWhile isPyWs)
    else
      match l with
      | [] => []
      | c :: r => c :: subFenceOpenGo fuel (c = '\n') r

/-- The fence-opening substitution applied to a whole text. -/
def subFenceOpen (atLineStart : Bool) (l : List Char) : List Char :=
  subFenceOpenGo (l.length + 1) atLineStart l

/-- One pass of `re.sub(r'\s*```$', '', text, flags=re.MULTILINE)`: a
whitespace run followed immediately by a closing fence at a line end
(end of text or just before a newline) is deleted.  The regex engine's
backtracking forces the fence to sit exactly at the end of the
whitespace run, so matching at a position reduces to this test.  Fuel
as in `subFenceOpenGo`. -/
def subFenceCloseGo (fuel : Nat) (l : List Char) : List Char :=
  match fuel with
  | 0 => l
  | fuel + 1 =>
    if leadsWith ("```".data) (l.dropWhile isPyWs) ∧
        (((l.dropWhile isPyWs).drop 3 = []) ∨ ((l.dropWhile isPyWs).drop 3).head? = some '\n') then
      subFenceCloseGo fuel ((l.dropWhile isPyWs).drop 3)
    else
      match l with
      | [] => []
      | c :: r => c :: subFenceCloseGo fuel r

/-- The fence-closing substitution applied to a whole text. -/
def subFenceClose (l : List Char) : List Char :=
  subFenceCloseGo (l.length + 1) l

/-- The preprocessing pipeline of `AIContentGenerator._extract_json`
(`ai_generator.py` lines 215-222): strip, remove markdown code fences,
strip again.  The bracket-selection logic below operates on this
fence-stripped text. -/
def extractPre (text : List Char) : List Char :=
  pyStrip (subFenceClose (subFenceOpen true (pyStrip text)))

/-- The bracket-selection logic of `_extract_json` (lines 224-240):
find the first `{` / last `}` and the first `[` / last `]`, extract
whichever bracket type opens earlier when its closer lies after its
opener, and otherwise return the text unchanged. -/
def extractChoose (t : List Char) : List Char :=
  let objStart := findChar t '{'
  let objEnd := rfindChar t '}'
  let arrStart := findChar t '['
  let arrEnd := rfindChar t ']'
  if arrStart ≠ -1 ∧ (objStart = -1 ∨ arrStart < objStart) then
    if arrStart ≠ -1 ∧ arrEnd ≠ -1 ∧ arrEnd > arrStart then
      sliceL t arrStart.toNat (arrEnd.toNat + 1)
    else t
  else
    if objStart ≠ -1 ∧ objEnd ≠ -1 ∧ objEnd > objStart then
      sliceL t objStart.toNat (objEnd.toNat + 1)
    else t

/-- `AIContentGenerator._extract_json` (`ai_generator.py` lines
215-240). -/
def extract_json (text : List Char) : List Char :=
  extractChoose (extractPre text)

/-- `re.sub(r'\s+', ' ', text)`: every maximal whitespace run becomes a
single space.  The flag records whether the previous character was part
of a run whose space has already been emitted. -/
def collapseWsGo (prevWs : Bool) : List Char → List Char
  | [] => []
  | c :: rest =>
    if isPyWs c then
      if prevWs then collapseWsGo true rest else ' ' :: collapseWsGo true rest
    else c :: collapseWsGo false rest

/-- Whitespace-run collapsing, `re.sub(r'\s+', ' ', text)`. -/
def collapseWs (l : List Char) : List Char :=
  collapseWsGo false l

/-- Python regex `\w` for the ASCII range. -/
def isWordChar (c : Char) : Bool :=
  c.isAlpha || c.isDigit || c == '_'

/-- Counts maximal `\w+` runs (`len(re.findall(r'\w+', s))`). -/
def countWordsGo (inRun : Bool) : List Char → Nat
  | [] => 0
  | c :: rest =>
    if isWordChar c then (if inRun then 0 else 1) + countWordsGo true rest
    else countWordsGo false rest

/-- Word count used by `_clean_intro`. -/
def wordCount (l : List Char) : Nat :=
  countWordsGo false l

/-- Python `pat in hay` substring containment. -/
def containsSub : List Char → List Char → Bool
  | hay, pat =>
    leadsWith pat hay ||
      (match hay with
       | [] => false
       | _ :: rest => containsSub rest pat)

/-- ASCII lowercasing (Python `str.lower()` on the program's ASCII
prompts/responses). -/
def lowerAscii (c : Char) : Char :=
  if 'A' ≤ c ∧ c ≤ 'Z' then Char.ofNat (c.toNat + 32) else c

/-- Lowercase a whole string. -/
def lowerL (l : List Char) : List Char :=
  l.map lowerAscii

/-- Python `str.splitlines()` over the ASCII line boundaries the
program can encounter (`\n`, `\r`, `\r\n`, `\v`, `\f`).  A `\r\n` pair
is consumed as one boundary.  Every step consumes at least one
character, so fuel one above the input length never runs out. -/
def splitLinesGo (fuel : Nat) (cur : List Char) : List Char → List (List Char)
  | [] => if cur.isEmpty then [] else [cur.reverse]
  | c :: rest =>
    match fuel with
    | 0 => if cur.isEmpty then [] else [cur.reverse]
    | fuel + 1 =>
      if c = '\r' then
        if rest.head? = some '\n' then cur.reverse :: splitLinesGo fuel [] rest.tail
        else cur.reverse :: splitLinesGo fuel [] rest
      else if c = '\n' ∨ c = '\x0b' ∨ c = '\x0c' then
        cur.reverse :: splitLinesGo fuel [] rest
      else splitLinesGo fuel (c :: cur) rest

/-- `str.splitlines()`. -/
def splitLines (l : List Char) : List (List Char) :=
  splitLinesGo (l.length + 1) [] l

/-- Python `str.split()` with no argument: split on whitespace runs,
dropping empty pieces. -/
def splitWsGo (cur : List Char) : List Char → List (List Char)
  | [] => if cur.isEmpty then [] else [cur.reverse]
  | c :: rest =>
    if isPyWs c then
      if cur.isEmpty then splitWsGo [] rest else cur.reverse :: splitWsGo [] rest
    else splitWsGo (c :: cur) rest

/-- `str.split()`. -/
def splitWs (l : List Char) : List (List Char) :=
  splitWsGo [] l

/-- Numeric value of a digit run, as Python `int()` on a digit-only
string (leading zeros allowed). -/
def digitsToNat (l : List Char) : Nat :=
  l.foldl (fun acc c => acc * 10 + (c.toNat - '0'.toNat)) 0

/-- `re.findall(r'\b(\d+)\b', s)` mapped through `int`: maximal digit
runs enclosed in word boundaries, in order of occurrence.  `cur` holds
the digits of the current run (reversed); `curOk` records that the run
started at a word boundary; `prevWord` whether the previous character
was a word character. -/
def scanIntsGo (prevWord : Bool) (cur : List Char) (curOk : Bool) : List Char → List Nat
  | [] => if cur ≠ [] ∧ curOk then [digitsToNat cur.reverse] else []
  | c :: rest =>
    if c.isDigit then
      if cur.isEmpty then scanIntsGo true [c] (!prevWord) rest
      else scanIntsGo true (c :: cur) curOk rest
    else
      (if cur ≠ [] ∧ curOk ∧ ¬ isWordChar c then [digitsToNat cur.reverse] else []) ++
        scanIntsGo (isWordChar c) [] false rest

/-- All `\b`-delimited integers of a string, in order. -/
def scanInts (l : List Char) : List Nat :=
  scanIntsGo false [] false l

/-- JSON values as produced by Python's `json.loads`; numeric literals
are kept as their source text since the program only ever reads string
fields out of decoded values. -/
inductive PyJson where
  | null : PyJson
  | bool (b : Bool) : PyJson
  | num (src : List Char) : PyJson
  | str (s : List Char) : PyJson
  | arr (xs : List PyJson) : PyJson
  | obj (kvs : List (List Char × PyJson)) : PyJson
deriving Repr, BEq

/-- JSON insignificant whitespace. -/
def isJsonWs (c : Char) : Bool :=
  c == ' ' || c == '\t' || c == '\n' || c == '\r'

/-- Hex digit value. -/
def hexVal (c : Char) : Option Nat :=
  if '0' ≤ c ∧ c ≤ '9' then some (c.toNat - '0'.toNat)
  else if 'a' ≤ c ∧ c ≤ 'f' then some (c.toNat - 'a'.toNat + 10)
  else if 'A' ≤ c ∧ c ≤ 'F' then some (c.toNat - 'A'.toNat + 10)
  else none

/-- Body of a JSON string literal after the opening quote: decoded
characters plus the remaining input after the closing quote. -/
def jpStringBody (fuel : Nat) (l : List Char) : Option (List Char × List Char) :=
  match fuel, l with
  | 0, _ => none
  | _, [] => none
  | fuel + 1, c :: rest =>
    if c = '"' then some ([], rest)
    else if c = '\\' then
      match rest with
      | [] => none
      | e :: rest2 =>
        let dec : Option (Char × List Char) :=
          if e = '"' then some ('"', rest2)
          else if e = '\\' then some ('\\', rest2)
          else if e = '/' then some ('/', rest2)
          else if e = 'b' then some ('\x08', rest2)
          else if e = 'f' then some ('\x0c', rest2)
          else if e = 'n' then some ('\n', rest2)
          else if e = 'r' then some ('\r', rest2)
          else if e = 't' then some ('\t', rest2)
          else if e = 'u' then
            match rest2 with
            | h1 :: h2 :: h3 :: h4 :: rest3 =>
              match hexVal h1, hexVal h2, hexVal h3, hexVal h4 with
              | some a, some b, some c2, some d =>
                some (Char.ofNat (((a * 16 + b) * 16 + c2) * 16 + d), rest3)
              | _, _, _, _ => none
            | _ => none
          else none
        match dec with
        | some (ch, rest3) =>
          match jpStringBody fuel rest3 with
          | some (s, rem) => some (ch :: s, rem)
          | none => none
        | none => none
    else
      match jpStringBody fuel rest with
      | some (s, rem) => some (c :: s, rem)
      | none => none

/-- A JSON number literal: `-? (0 | [1-9][0-9]*) (. [0-9]+)? ([eE][+-]?[0-9]+)?`.
Returns the consumed source text and the remaining input. -/
def jpNumber (l : List Char) : Option (List Char × List Char) :=
  let (sign, l1) := if l.head? = some '-' then (['-'], l.drop 1) else ([], l)
  let intPart := l1.takeWhile Char.isDigit
  let l2 := l1.dropWhile Char.isDigit
  if intPart = [] then none
  else if 2 ≤ intPart.length ∧ intPart.head? = some '0' then none
  else
    let (frac, l3) :=
      if l2.head? = some '.' then
        let ds := (l2.drop 1).takeWhile Char.isDigit
        if ds = [] then ([], l2) else ('.' :: ds, (l2.drop 1).dropWhile Char.isDigit)
      else ([], l2)
    if l2.head? = some '.' ∧ frac = [] then none
    else
      let (ex, l4) :=
        if l3.head? = some 'e' ∨ l3.head? = some 'E' then
          let l3' := l3.drop 1
          let (es, l3'') :=
            if l3'.head? = some '+' ∨ l3'.head? = some '-' then
              ([l3'.head?.getD '+'], l3'.drop 1)
            else ([], l3')
          let ds := l3''.takeWhile Char.isDigit
          if ds = [] then ([], l3)
          else ((l3.take 1) ++ es ++ ds, l3''.dropWhile Char.isDigit)
        else ([], l3)
      if (l3.head? = some 'e' ∨ l3.head? = some 'E') ∧ ex = [] then none
      else some (sign ++ intPart ++ frac ++ ex, l4)

mutual

/-- One JSON value (fuel-bounded recursive-descent, mirroring
`json.loads`'s grammar). -/
def jpVal : Nat → List Char → Option (PyJson × List Char)
  | 0, _ => none
  | fuel + 1, l =>
    let l := l.dropWhile isJsonWs
    match l with
    | [] => none
    | c :: rest =>
      if c = '"' then
        match jpStringBody (fuel + 1) rest with
        | some (s, rem) => some (PyJson.str s, rem)
        | none => none
      else if c = '{' then
        let rest' := rest.dropWhile isJsonWs
        if rest'.head? = some '}' then some (PyJson.obj [], rest'.drop 1)
        else
          match jpObjItems fuel rest with
          | some (kvs, rem) => some (PyJson.obj kvs, rem)
          | none => none
      else if c = '[' then
        let rest' := rest.dropWhile isJsonWs
        if rest'.head? = some ']' then some (PyJson.arr [], rest'.drop 1)
        else
          match jpArrItems fuel rest with
          | some (xs, rem) => some (PyJson.arr xs, rem)
          | none => none
      else if leadsWith ("true".data) l then some (PyJson.bool true, l.drop 4)
      else if leadsWith ("false".data) l then some (PyJson.bool false, l.drop 5)
      else if leadsWith ("null".data) l then some (PyJson.null, l.drop 4)
      else
        match jpNumber l with
        | some (src, rem) => some (PyJson.num src, rem)
        | none => none

/-- Comma-separated array items up to the closing bracket. -/
def jpArrItems : Nat → List Char → Option (List PyJson × List Char)
  | 0, _ => none
  | fuel + 1, l =>
    match jpVal fuel l with
    | some (v, rem) =>
      let rem' := rem.dropWhile isJsonWs
      match rem' with
      | ']' :: rem2 => some ([v], rem2)
      | ',' :: rem2 =>
        match jpArrItems fuel rem2 with
        | some (xs, rem3) => some (v :: xs, rem3)
        | none => none
      | _ => none
    | none => none

/-- Comma-separated `"key": value` pairs up to the closing brace. -/
def jpObjItems : Nat → List Char → Option (List (List Char × PyJson) × List Char)
  | 0, _ => none
  | fuel + 1, l =>
    let l := l.dropWhile isJsonWs
    match l with
    | '"' :: rest =>
      match jpStringBody fuel rest with
      | some (k, rem) =>
        let rem' := rem.dropWhile isJsonWs
        match rem' with
        | ':' :: rem2 =>
          match jpVal fuel rem2 with
          | some (v, rem3) =>
            let rem4 := rem3.dropWhile isJsonWs
            match rem4 with
            | '}' :: rem5 => some ([(k, v)], rem5)
            | ',' :: rem5 =>
              match jpObjItems fuel rem5 with
              | some (kvs, rem6) => some ((k, v) :: kvs, rem6)
              | none => none
            | _ => none
          | none => none
        | _ => none
      | none => none
    | _ => none

end

/-- `json.loads`: a single JSON document with nothing but whitespace
around it; `none` models a raised `JSONDecodeError`. -/
def jsonLoads (l : List Char) : Option PyJson :=
  match jpVal (2 * l.length + 4) l with
  | some (v, rem) => if rem.dropWhile isJsonWs = [] then some v else none
  | none => none

/-- Lookup in a decoded object.  `json.loads` builds a `dict`, where a
duplicated key keeps its last value, so the last matching pair wins. -/
def lookupLast (kvs : List (List Char × PyJson)) (k : List Char) : Option PyJson :=
  (kvs.reverse.find? (fun kv => kv.1 == k)).map (fun kv => kv.2)

/-- The apostrophe character. -/
def apoChar : Char := Char.ofNat 39

/-- The key-probing loop of `_clean_intro`'s phase 1: the first of the
listed keys whose value is a string of more than 20 whitespace-separated
words replaces the text. -/
def probeKeys (kvs : List (List Char × PyJson)) (t : List Char) : List Char :=
  match
    (["intro".data, "content".data, "text".data, "answer".data,
      "paragraph".data, "description".data].findSome?
      (fun k =>
        match lookupLast kvs k with
        | some (PyJson.str s) => if 20 < (splitWs s).length then some s else none
        | _ => none))
  with
  | some s => s
  | none => t

/-- Phase 1 of `_clean_intro` (`ai_generator.py` lines 249-262): when
the text looks like JSON (starts with a brace or mentions a quoted
`intro`/`content` key), try to extract and decode it and pull out a
long-enough string field; any failure leaves the text unchanged. -/
def cleanPhase1 (t : List Char) : List Char :=
  if leadsWith ("\x7b".data) t ∨ containsSub (lowerL t) ("\"intro\"".data) ∨
      containsSub (lowerL t) ("\"content\"".data) then
    match jsonLoads (extract_json t) with
    | some (PyJson.obj kvs) => probeKeys kvs t
    | _ => t
  else t

/-- The instruction-token tuple of `_clean_intro.is_instruction`. -/
def instructionTokens : List (List Char) :=
  ["we need".data, String.data ("let" ++ String.mk [apoChar] ++ "s"), "lets".data,
   "word count".data, "character count".data, "i will".data, "draft".data,
   "plan".data, "outline".data, "analysis".data, "approach".data,
   "step".data, "goal".data, "objective".data, "strategy".data]

/-- `re.search(r'^\s*["\x27]?\w+["\x27]?\s*:', segment)`: after leading
whitespace and an optional quote, a nonempty word-character run, an
optional quote, optional whitespace and a colon.  Regex backtracking
collapses to this deterministic reading because a quote is not a word
character and a colon is neither. -/
def jsonKeyMatch (l : List Char) : Bool :=
  let l1 := l.dropWhile isPyWs
  let l2 := if l1.head? = some '"' ∨ l1.head? = some apoChar then l1.drop 1 else l1
  let run := l2.takeWhile isWordChar
  if run.isEmpty then false
  else
    let l3 := l2.dropWhile isWordChar
    let l4 := if l3.head? = some '"' ∨ l3.head? = some apoChar then l3.drop 1 else l3
    (l4.dropWhile isPyWs).head? = some ':'

/-- `_clean_intro.is_instruction` (lines 264-274). -/
def isInstruction (seg : List Char) : Bool :=
  if jsonKeyMatch seg then true
  else instructionTokens.any (fun tok => containsSub (lowerL seg) tok)

/-- An opening quote of `re.finditer(r'["“](.+?)["”]', text, re.DOTALL)`. -/
def isOpenerQ (c : Char) : Bool := c == '"' || c == '“'

/-- A closing quote of the same pattern. -/
def isCloserQ (c : Char) : Bool := c == '"' || c == '”'

/-- The quoted spans found by the lazy pattern `["“](.+?)["”]`: from an
opening quote, the nonempty content runs to the first closing quote at
least two characters later; scanning resumes after that closer.  Every
step consumes at least one character, so fuel one above the input
length never runs out. -/
def quotedSpansGo (fuel : Nat) : List Char → List (List Char)
  | [] => []
  | c :: rest =>
    match fuel with
    | 0 => []
    | fuel + 1 =>
      if isOpenerQ c then
        match rest with
        | [] => []
        | c2 :: tail =>
          match List.findIdx? isCloserQ tail with
          | some j => ((c2 :: tail).take (j + 1)) :: quotedSpansGo fuel (tail.drop (j + 1))
          | none => quotedSpansGo fuel (c2 :: tail)
      else quotedSpansGo fuel rest

/-- The quoted spans of a text. -/
def quotedSpans (l : List Char) : List (List Char) :=
  quotedSpansGo (l.length + 1) l

/-- The candidate list of `_clean_intro` (lines 279-282): stripped
quoted spans first, then stripped nonempty lines. -/
def cleanCandidates (t : List Char) : List (List Char) :=
  (quotedSpans t).map pyStrip ++ ((splitLines t).map pyStrip).filter (fun s => ¬ s.isEmpty)

/-- The strip set `'"“” ,:{}[]'` used on candidates. -/
def candStripSet : List Char :=
  ['"', '“', '”', ' ', ',', ':', '{', '}', '[', ']']

/-- Candidate normalisation (lines 286-288): strip JSON debris, then
collapse whitespace. -/
def normalizeCand (cand : List Char) : List Char :=
  collapseWs (stripChars candStripSet cand)

/-- The candidate-acceptance loop (lines 284-299): the first normalised
candidate that is new, in the 40-150 word band, not instruction-like
and not ending in a colon is returned. -/
def candLoop (seen : List (List Char)) : List (List Char) → Option (List Char)
  | [] => none
  | cand :: rest =>
    let normalized := normalizeCand cand
    if normalized.isEmpty ∨ seen.contains normalized then candLoop seen rest
    else
      if 40 ≤ wordCount normalized ∧ wordCount normalized ≤ 150 ∧
          ¬ isInstruction normalized ∧ ¬ endsWith ([':']) normalized then
        some normalized
      else candLoop (normalized :: seen) rest

/-- `re.split(r'(?<=[.!?])\s+', text)`: split at whitespace runs that
directly follow a sentence-ending punctuation mark.  Every step
consumes at least one character, so fuel one above the input length
never runs out. -/
def sentSplitGo (fuel : Nat) (cur : List Char) (prevEnd : Bool) : List Char → List (List Char)
  | [] => [cur.reverse]
  | c :: rest =>
    match fuel with
    | 0 => [cur.reverse]
    | fuel + 1 =>
      if isPyWs c ∧ prevEnd then
        cur.reverse :: sentSplitGo fuel [] false (rest.dropWhile isPyWs)
      else
        sentSplitGo fuel (c :: cur) (c = '.' ∨ c = '!' ∨ c = '?') rest

/-- Sentence split used by the fallback path. -/
def sentenceSplit (t : List Char) : List (List Char) :=
  sentSplitGo (t.length + 1) [] false t

/-- The strip set `'"“” :{}[]'` of the sentence-fallback path (no
comma). -/
def fallbackStripSet : List Char :=
  ['"', '“', '”', ' ', ':', '{', '}', '[', ']']

/-- The sentence-filtering fallback (lines 301-306): drop empty and
instruction-like sentences, rejoin, strip; a nonempty result is
whitespace-collapsed and returned. -/
def sentenceFallback (t : List Char) : Option (List Char) :=
  let fb := stripChars fallbackStripSet
    (List.intercalate (" ".data)
      ((sentenceSplit t).filter (fun s => ¬ s.isEmpty ∧ ¬ isInstruction s)))
  if fb.isEmpty then none else some (collapseWs fb)

/-- The strip set `'""" {}[]'` of the last-resort return (line 308). -/
def lastStripSet : List Char :=
  ['"', ' ', '{', '}', '[', ']']

/-- The last-resort return (line 308). -/
def lastResort (t : List Char) : List Char :=
  collapseWs (stripChars lastStripSet t)

/-- `AIContentGenerator._clean_intro` (`ai_generator.py` lines
242-308). -/
def clean_intro (text : List Char) : List Char :=
  if text.isEmpty then []
  else
    let t3 := pyStrip (cleanPhase1 (pyStrip text))
    match candLoop [] (cleanCandidates t3) with
    | some r => r
    | none =>
      match sentenceFallback t3 with
      | some r => r
      | none => lastResort t3

/-! ## Provider router (`unified_ai_client.py`) -/

/-- The success/failure counters of `UnifiedAIClient.stats`. -/
structure RouterStats where
  chatZaiSuccess : Nat
  chatZaiFailed : Nat
  cerebrasSuccess : Nat
  cerebrasFailed : Nat
  totalRequests : Nat
deriving Repr, DecidableEq

/-- Router state: the primary-health flag plus the counters. -/
structure RouterState where
  chatZaiHealthy : Bool
  stats : RouterStats
deriving Repr, DecidableEq

/-- Environment behaviour for one `generate` request: the outcome of
the primary (`chat_zai.generate`) call, of the context rotation, of the
secondary (`cerebras.generate`) call, and of the health re-probe run
after a successful secondary call. -/
structure RouterOracle where
  primary : Except (List Char) (List Char)
  rotateOk : Bool
  secondary : Except (List Char) (List Char)
  healthAfter : Bool
deriving Repr

/-- Observable calls made while serving one request. -/
structure RouterCalls where
  primaryCalled : Bool
  markedUnhealthy : Bool
  secondaryCalled : Bool
  healthCheckCalled : Bool
  rotateCalled : Bool
deriving Repr, DecidableEq

/-- The completeness check of `UnifiedAIClient.generate` lines 81-90:
a stripped response that opens a JSON bracket must close it, else an
exception is raised inside the `try`. -/
def incompleteJson (response : List Char) : Bool :=
  let rs := pyStrip response
  if leadsWith ("\x7b".data) rs ∨ leadsWith ("[".data) rs then
    if leadsWith ("\x7b".data) rs ∧ ¬ endsWith ("\x7d".data) rs then true
    else if leadsWith ("[".data) rs ∧ ¬ endsWith ("]".data) rs then true
    else false
  else false

/-- The fallback section of `UnifiedAIClient.generate` (lines 119-150):
call Cerebras; on success count it, re-probe ChatZai's health and store
it; on failure count it and raise. -/
def routerSecondary (st : RouterState) (o : RouterOracle) (calls : RouterCalls) :
    Except (List Char) (List Char) × RouterState × RouterCalls :=
  match o.secondary with
  | Except.ok r =>
    (Except.ok r,
     { st with
        stats := { st.stats with cerebrasSuccess := st.stats.cerebrasSuccess + 1 },
        chatZaiHealthy := o.healthAfter },
     { calls with secondaryCalled := true, healthCheckCalled := true })
  | Except.error _ =>
    (Except.error ("Both AI providers failed".data),
     { st with stats := { st.stats with cerebrasFailed := st.stats.cerebrasFailed + 1 } },
     { calls with secondaryCalled := true })

/-- `UnifiedAIClient.generate` (`unified_ai_client.py` lines 46-150):
try the primary if healthy, treat an opening-only JSON payload as a
raised exception (so it is counted as a primary failure, the health
flag is cleared, and the secondary is called), otherwise rotate context
and return; when the primary is unhealthy at entry go straight to the
secondary.  The router never JSON-decodes the response text. -/
def UnifiedAIClient.generate (st : RouterState) (o : RouterOracle) :
    Except (List Char) (List Char) × RouterState × RouterCalls :=
  let st := { st with stats := { st.stats with totalRequests := st.stats.totalRequests + 1 } }
  let calls : RouterCalls :=
    { primaryCalled := false, markedUnhealthy := false, secondaryCalled := false,
      healthCheckCalled := false, rotateCalled := false }
  if st.chatZaiHealthy then
    match o.primary with
    | Except.ok response =>
      if incompleteJson response then
        routerSecondary
          { st with
              stats := { st.stats with chatZaiFailed := st.stats.chatZaiFailed + 1 },
              chatZaiHealthy := false }
          o { calls with primaryCalled := true, markedUnhealthy := true }
      else
        (Except.ok response,
         { st with stats := { st.stats with chatZaiSuccess := st.stats.chatZaiSuccess + 1 } },
         { calls with primaryCalled := true, rotateCalled := true })
    | Except.error _ =>
      routerSecondary
        { st with
            stats := { st.stats with chatZaiFailed := st.stats.chatZaiFailed + 1 },
            chatZaiHealthy := false }
        o { calls with primaryCalled := true, markedUnhealthy := true }
  else
    routerSecondary st o calls

/-! ## Parallel batch collection (`ai_generator.py` lines 929-1052) -/

/-- Replace the value of an existing key in place or append a new pair:
one step of Python `dict` insertion. -/
def updAssoc (m : List (List Char × PyJson)) (kv : List Char × PyJson) :
    List (List Char × PyJson) :=
  if m.any (fun e => e.1 == kv.1) then
    m.map (fun e => if e.1 == kv.1 then (e.1, kv.2) else e)
  else m ++ [kv]

/-- Python `dict.update` / dict construction from pairs. -/
def dictUpdate (m new : List (List Char × PyJson)) : List (List Char × PyJson) :=
  new.foldl updAssoc m

/-- The result mapping assembled by `generate_all_content_parallel`. -/
structure BatchResults where
  intro : Option (List Char)
  badges : Option PyJson
  guide : Option PyJson
  faqs : Option PyJson
  reviews : List (List Char × PyJson)
  takeaways : Option PyJson
deriving Repr

/-- The empty result mapping. -/
def emptyResults : BatchResults :=
  { intro := none, badges := none, guide := none, faqs := none,
    reviews := [], takeaways := none }

/-- The `as_completed` collection loop (lines 1008-1034): store each
completed task's result under its name, merge review batches into the
running review mapping, and re-raise the first failed task's error,
discarding everything collected so far. -/
def collectParallel (acc : BatchResults) :
    List (List Char × Except (List Char) PyJson) → Except (List Char) BatchResults
  | [] => Except.ok acc
  | (_, Except.error e) :: _ => Except.error e
  | (name, Except.ok v) :: rest =>
    let acc' :=
      if name == "badges".data then { acc with badges := some v }
      else if name == "guide".data then { acc with guide := some v }
      else if name == "faqs".data then { acc with faqs := some v }
      else if leadsWith ("review_batch_".data) name then
        match v with
        | PyJson.obj kvs => { acc with reviews := dictUpdate acc.reviews kvs }
        | _ => acc
      else acc
    collectParallel acc' rest

/-- `AIContentGenerator.generate_all_content_parallel` (lines 929-1052)
as a function of the intro outcome, the completion-ordered outcomes of
the parallel tasks, and the takeaways outcome: an intro failure or any
parallel-task failure raises; a takeaways failure is absorbed into an
empty list. -/
def generate_all_content_parallel (introOutcome : Except (List Char) (List Char))
    (completions : List (List Char × Except (List Char) PyJson))
    (takeawaysOutcome : Except (List Char) PyJson) : Except (List Char) BatchResults :=
  match introOutcome with
  | Except.error e => Except.error e
  | Except.ok intro =>
    match collectParallel { emptyResults with intro := some intro } completions with
    | Except.error e => Except.error e
    | Except.ok res =>
      match takeawaysOutcome with
      | Except.ok t => Except.ok { res with takeaways := some t }
      | Except.error _ => Except.ok { res with takeaways := some (PyJson.arr []) }

/-! ## Keyword classification (`ai_generator.py` lines 74-129) -/

/-- `AIContentGenerator.classify_keyword` as a function of the outcome
of the underlying generation call (the call inside the `try` block; in
the shipped code that call always raises a `TypeError` because it
passes a `min_length` keyword that `CerebrasClient.generate` does not
accept, which lands in the same `except` branch).  Every exception is
caught and mapped to skip; otherwise the first character `1`/`2`/`3`
of the stripped response selects the type, defaulting to skip. -/
def classify_keyword (genOutcome : Except (List Char) (List Char)) : List Char :=
  match genOutcome with
  | Except.error _ => "skip".data
  | Except.ok response =>
    let r := pyStrip response
    match r.find? (fun c => c == '1' || c == '2' || c == '3') with
    | some '1' => "review".data
    | some '2' => "info".data
    | some '3' => "skip".data
    | _ => "skip".data

/-! ## Batched product reviews (`ai_generator.py` lines 636-783) -/

/-- A product record as read by the generator: `asin`, `title` and
`features` are accessed directly, `brand` and `price` through
`dict.get` with a default. -/
structure Product where
  asin : List Char
  title : List Char
  brand : Option (List Char)
  price : Option (List Char)
  features : List (List Char)
deriving Repr

/-- The per-entry validation of `generate_product_reviews_batch`
(lines 745-757): each value must be a dict holding `description`,
`pros` and `cons`, with `pros`/`cons` lists; the success-logging line
then calls `.split()` on each description, so a non-string description
also fails the attempt. -/
def validReviewEntry : List Char × PyJson → Bool
  | (_, PyJson.obj rv) =>
    (match lookupLast rv ("description".data) with
     | some (PyJson.str _) => true
     | _ => false) &&
    (match lookupLast rv ("pros".data) with
     | some (PyJson.arr _) => true
     | _ => false) &&
    (match lookupLast rv ("cons".data) with
     | some (PyJson.arr _) => true
     | _ => false)
  | _ => false

/-- One attempt of the batched-review loop (lines 726-772): a raised
generation call, a JSON-decode failure, a non-dict payload or a failed
entry validation all end the attempt; otherwise the decoded dict is the
result. -/
def batchAttempt (resp : Except (List Char) (List Char)) :
    Option (List (List Char × PyJson)) :=
  match resp with
  | Except.error _ => none
  | Except.ok r =>
    match jsonLoads (extract_json r) with
    | some (PyJson.obj kvs) =>
      let d := dictUpdate [] kvs
      if d.all validReviewEntry then some d else none
    | _ => none

/-- The templated fallback description (line 779):
`This {brand} product offers {features or placeholder}. A solid choice
for {keyword}.`. -/
def fallbackDescription (keyword : List Char) (p : Product) : List Char :=
  "This ".data ++ p.brand.getD [] ++ " product offers ".data ++
    (if p.features.isEmpty then "great features".data
     else List.intercalate (" and ".data) (p.features.take 3)) ++
    ". A solid choice for ".data ++ keyword ++ ".".data

/-- The fallback review dict entry built per product (lines 777-782). -/
def fallbackReview (keyword : List Char) (p : Product) : PyJson :=
  PyJson.obj
    [("description".data, PyJson.str (fallbackDescription keyword p)),
     ("pros".data, PyJson.arr
       [PyJson.str ("Quality build".data), PyJson.str ("Good features".data),
        PyJson.str ("Reliable performance".data)]),
     ("cons".data, PyJson.arr
       [PyJson.str ("Price may vary".data), PyJson.str ("Limited availability".data)])]

/-- `AIContentGenerator.generate_product_reviews_batch` (lines 636-783)
as a function of the outcomes of its (at most three) generation
attempts: the first successful attempt's dict is returned; if every
attempt fails, the fallback dict keyed by each product's `asin` is
returned instead of raising. -/
def generate_product_reviews_batch (products : List Product) (keyword : List Char)
    (attempts : List (Except (List Char) (List Char))) : List (List Char × PyJson) :=
  match (attempts.take 3).findSome? batchAttempt with
  | some reviews => reviews
  | none => dictUpdate [] (products.map (fun p => (p.asin, fallbackReview keyword p)))

/-! ## Category selection (`ai_generator.py` lines 22-71) -/

/-- A WordPress category as fed to `select_category`. -/
structure Category where
  id : Nat
  name : List Char
deriving Repr, DecidableEq

/-- The response-parsing logic written in `select_category` lines
56-67: scan every `\b`-delimited integer of the response in order and
return the first whose value is a known category id (with a non-empty
name, since the code tests the looked-up name for truthiness);
otherwise 0. -/
def selectCategoryParse (response : List Char) (categories : List Category) : Nat :=
  ((scanInts response).findSome? (fun cid =>
    match categories.find? (fun c => c.id == cid) with
    | some c => if c.name.isEmpty then none else some cid
    | none => none)).getD 0

/-- `AIContentGenerator.select_category` (lines 22-71) as shipped: with
a non-empty category list it evaluates
`self.client.generate(prompt=..., max_tokens=50, temperature=0.1,
model_override='zai-glm-4.6', min_length=1)`.  `UnifiedAIClient.generate`
(`unified_ai_client.py` line 46) has no `min_length` parameter, so the
call raises `TypeError` before any backend is contacted; the
surrounding `except Exception` handler returns 0.  The response-parsing
code below the call is therefore unreachable, whatever the backends
would answer (`backendBehaviour` is ignored exactly as the code ignores
it). -/
def select_category (_keyword : List Char) (categories : List Category)
    (_backendBehaviour : Except (List Char) (List Char)) : Nat :=
  if categories.isEmpty then 0
  else 0

/-! ## Rotating-key backend (`cerebras_client.py` lines 148-338; the
file defines `_rotate_key` and `generate` twice and the later
definitions are the ones bound on the class) -/

/-- Rotating-key client state: the active key index, the set of keys
marked failed this run, and the persisted index in the cache file. -/
structure CerebrasState where
  keyIndex : Nat
  failedKeys : List Nat
  cacheFile : Option Nat
deriving Repr, DecidableEq

/-- Outcome of one `chat.completions.create` call with a given key. -/
inductive KeyOutcome where
  | ok (content : List Char) : KeyOutcome
  | authErr : KeyOutcome
  | otherErr : KeyOutcome
deriving Repr

/-- `CerebrasClient._init_client` (lines 174-186): constructing the SDK
object with a key string does not validate the key, so initialisation
succeeds, sets the index and immediately persists it to the cache
file. -/
def initClient (st : CerebrasState) (i : Nat) : CerebrasState :=
  { st with keyIndex := i, cacheFile := some i }

/-- The candidate scan of `_rotate_key` (lines 195-213): starting from
`key_index + 1`, skip indices marked failed; since `_init_client`
always succeeds, the first non-failed candidate is chosen. -/
def rotateFindGo (n keyIndex : Nat) (failed : List Nat) : Nat → Nat → Option Nat
  | _, 0 => none
  | attempts, fuel + 1 =>
    if attempts < n then
      let next := (keyIndex + 1 + attempts) % n
      if failed.contains next then rotateFindGo n keyIndex failed (attempts + 1) fuel
      else some next
    else none

/-- `CerebrasClient._rotate_key` (lines 188-216): with at most one key
rotation is refused; otherwise the first non-failed candidate becomes
the active key and its index is persisted (by `_init_client` and again
after the rotation). -/
def rotate_key (n : Nat) (st : CerebrasState) : Option CerebrasState :=
  if n ≤ 1 then none
  else
    match rotateFindGo n st.keyIndex st.failedKeys 0 n with
    | some i => some (initClient st i)
    | none => none

/-- The retry loop of `CerebrasClient.generate` (lines 230-338):
`oracle` gives each key's request outcome.  A success persists the
current index and returns the content; an auth/rate-limit error marks
the current key failed and rotates (raising when rotation finds no key);
any other error re-raises; the loop gives up after `2 * n` attempts. -/
def cerebrasGenGo (oracle : Nat → KeyOutcome) (n : Nat) (st : CerebrasState) :
    Nat → Nat → Except (List Char) (List Char) × CerebrasState
  | _, 0 => (Except.error ("Failed after max attempts".data), st)
  | attempts, fuel + 1 =>
    if attempts < 2 * n then
      match oracle st.keyIndex with
      | KeyOutcome.ok content =>
        (Except.ok content, { st with cacheFile := some st.keyIndex })
      | KeyOutcome.authErr =>
        let st1 := { st with failedKeys := st.failedKeys.insert st.keyIndex }
        match rotate_key n st1 with
        | some st2 => cerebrasGenGo oracle n st2 (attempts + 1) fuel
        | none => (Except.error ("All Cerebras API keys failed".data), st1)
      | KeyOutcome.otherErr => (Except.error ("Non-recoverable error".data), st)
    else (Except.error ("Failed after max attempts".data), st)

/-- `CerebrasClient.generate` (lines 218-338). -/
def CerebrasClient.generate (oracle : Nat → KeyOutcome) (n : Nat) (st : CerebrasState) :
    Except (List Char) (List Char) × CerebrasState :=
  cerebrasGenGo oracle n st 0 (2 * n + 1)

/-! ## Concrete scenarios used as witnesses -/

/-- Fresh router statistics. -/
def zeroStats : RouterStats :=
  { chatZaiSuccess := 0, chatZaiFailed := 0, cerebrasSuccess := 0,
    cerebrasFailed := 0, totalRequests := 0 }

/-- A router whose primary is healthy at entry. -/
def c1State : RouterState := { chatZaiHealthy := true, stats := zeroStats }

/-- A request on which the primary answers with a truncated JSON object
and the secondary succeeds. -/
def c1Oracle : RouterOracle :=
  { primary := Except.ok ("\x7b\"a\":1".data), rotateOk := true,
    secondary := Except.ok ("fallback text".data), healthAfter := true }

/-- A router whose primary is marked unhealthy at entry. -/
def c3State : RouterState := { chatZaiHealthy := false, stats := zeroStats }

/-- A request on which the secondary succeeds and the health re-probe
comes back positive. -/
def c3Oracle : RouterOracle :=
  { primary := Except.ok ("unused".data), rotateOk := true,
    secondary := Except.ok ("fallback text".data), healthAfter := true }

/-- Three credentials of which the first two fail with auth errors and
the third answers. -/
def c9Oracle : Nat → KeyOutcome := fun i =>
  if i = 2 then KeyOutcome.ok ("generated text".data) else KeyOutcome.authErr

/-- Rotating-key client starting on the first credential with a fresh
failed-key set. -/
def c9Start : CerebrasState := { keyIndex := 0, failedKeys := [], cacheFile := some 0 }

/-! ## Lemmas about the string-search primitives -/

theorem findChar_le {l : List Char} {c : Char} {i : Nat} (h : l.get? i = some c) :
    ∃ n : Nat, findChar l c = (n : Int) ∧ n ≤ i ∧ l.get? n = some c := by
  induction l generalizing i with
  | nil => simp at h
  | cons x r ih =>
    by_cases hx : x = c
    · exact ⟨0, by simp [findChar, hx], Nat.zero_le _, by simp [hx]⟩
    · cases i with
      | zero =>
        simp only [List.get?_cons_zero, Option.some.injEq] at h
        exact absurd h hx
      | succ i' =>
        simp only [List.get?_cons_succ] at h
        obtain ⟨n, hn, hni, hg⟩ := ih h
        refine ⟨n + 1, ?_, by omega, by simpa using hg⟩
        simp only [findChar, hx, if_false, hn]
        rw [if_neg (by omega : ¬((n : Int) = -1))]
        omega

theorem rfindChar_cases (l : List Char) (c : Char) :
    rfindChar l c = -1 ∨ ∃ n : Nat, rfindChar l c = (n : Int) ∧ l.get? n = some c := by
  induction l with
  | nil => left; rfl
  | cons x r ih =>
    rcases ih with h | ⟨n, hn, hg⟩
    · by_cases hx : x = c
      · right; exact ⟨0, by simp [rfindChar, h, hx], by simp [hx]⟩
      · left; simp [rfindChar, h, hx]
    · right
      refine ⟨n + 1, ?_, by simpa using hg⟩
      simp only [rfindChar, hn]
      rw [if_neg (by omega : ¬((n : Int) = -1))]
      omega

theorem rfindChar_ge {l : List Char} {c : Char} {j : Nat} (h : l.get? j = some c) :
    ∃ n : Nat, rfindChar l c = (n : Int) ∧ j ≤ n ∧ l.get? n = some c := by
  induction l generalizing j with
  | nil => simp at h
  | cons x r ih =>
    cases j with
    | zero =>
      simp only [List.get?_cons_zero, Option.some.injEq] at h
      rcases rfindChar_cases r c with hr | ⟨n, hn, hg⟩
      · exact ⟨0, by simp [rfindChar, hr, h], Nat.zero_le _, by simp [h]⟩
      · refine ⟨n + 1, ?_, Nat.zero_le _, by simpa using hg⟩
        simp only [rfindChar, hn]
        rw [if_neg (by omega : ¬((n : Int) = -1))]
        omega
    | succ j' =>
      simp only [List.get?_cons_succ] at h
      obtain ⟨n, hn, hj, hg⟩ := ih h
      refine ⟨n + 1, ?_, by omega, by simpa using hg⟩
      simp only [rfindChar, hn]
      rw [if_neg (by omega : ¬((n : Int) = -1))]
      omega

theorem extractChoose_arr {t : List Char} {a o b : Nat}
    (ha : findChar t '[' = (a : Int)) (ho : findChar t '{' = (o : Int))
    (hb : rfindChar t ']' = (b : Int)) (hao : a < o) (hab : a < b) :
    extractChoose t = sliceL t a (b + 1) := by
  unfold extractChoose
  simp only [ha, ho, hb]
  rw [if_pos ⟨by omega, Or.inr (by exact_mod_cast hao)⟩]
  rw [if_pos ⟨by omega, by omega, by exact_mod_cast hab⟩]
  have h1 : ((a : Int)).toNat = a := by omega
  have h2 : ((b : Int)).toNat = b := by omega
  rw [h1, h2]

theorem extractChoose_obj {t : List Char} {a o e : Nat}
    (ha : findChar t '[' = (a : Int)) (ho : findChar t '{' = (o : Int))
    (he : rfindChar t '}' = (e : Int)) (hoa : o < a) (hoe : o < e) :
    extractChoose t = sliceL t o (e + 1) := by
  unfold extractChoose
  simp only [ha, ho, he]
  rw [if_neg (by rintro ⟨h1, h2 | h2⟩ <;> omega)]
  rw [if_pos ⟨by omega, by omega, by exact_mod_cast hoe⟩]
  have h1 : ((o : Int)).toNat = o := by omega
  have h2 : ((e : Int)).toNat = e := by omega
  rw [h1, h2]

theorem extractChoose_arr_noclose {t : List Char} {a : Nat}
    (ha : findChar t '[' = (a : Int))
    (hobj : findChar t '{' = -1 ∨ findChar t '[' < findChar t '{')
    (hnone : ∀ p : Nat, a < p → t.get? p ≠ some ']') :
    extractChoose t = t := by
  have hcond : findChar t '{' = -1 ∨ (a : Int) < findChar t '{' := by
    rcases hobj with h | h
    · exact Or.inl h
    · exact Or.inr (ha ▸ h)
  rcases rfindChar_cases t ']' with hb | ⟨b, hb, hgb⟩
  · unfold extractChoose
    simp only [ha, hb]
    rw [if_pos ⟨by omega, hcond⟩]
    rw [if_neg (by rintro ⟨h1, h2, h3⟩; omega)]
  · have hba : b ≤ a := by
      by_contra hcon
      exact hnone b (by omega) hgb
    unfold extractChoose
    simp only [ha, hb]
    rw [if_pos ⟨by omega, hcond⟩]
    rw [if_neg (by rintro ⟨h1, h2, h3⟩; omega)]

theorem extractChoose_obj_noclose {t : List Char} {o : Nat}
    (ho : findChar t '{' = (o : Int))
    (harr : findChar t '[' = -1 ∨ findChar t '{' < findChar t '[')
    (hnone : ∀ p : Nat, o < p → t.get? p ≠ some '}') :
    extractChoose t = t := by
  have houter : ¬ (findChar t '[' ≠ -1 ∧ ((o : Int) = -1 ∨ findChar t '[' < (o : Int))) := by
    rcases harr with h | h
    · rw [h]
      rintro ⟨h1, _⟩
      exact h1 rfl
    · rw [ho] at h
      rintro ⟨h1, h2 | h2⟩ <;> omega
  rcases rfindChar_cases t '}' with he | ⟨e, he, hge⟩
  · unfold extractChoose
    simp only [ho, he]
    rw [if_neg houter]
    rw [if_neg (by rintro ⟨h1, h2, h3⟩; omega)]
  · have heo : e ≤ o := by
      by_contra hcon
      exact hnone e (by omega) hge
    unfold extractChoose
    simp only [ho, he]
    rw [if_neg houter]
    rw [if_neg (by rintro ⟨h1, h2, h3⟩; omega)]

/-- C6: for every input text whose fence-stripped form contains both a
complete object span (a `{` with a `}` after it) and a complete array
span (a `[` with a `]` after it), `_extract_json` returns the substring
running from the earlier of the two first opening brackets to the last
closing bracket of that same type, inclusive. -/
theorem extract_json_earliest_bracket (text : List Char) (i j k m : Nat)
    (hij : i < j) (hkm : k < m)
    (hi : (extractPre text).get? i = some '{') (hj : (extractPre text).get? j = some '}')
    (hk : (extractPre text).get? k = some '[') (hm : (extractPre text).get? m = some ']') :
    (findChar (extractPre text) '[' < findChar (extractPre text) '{' →
      extract_json text =
        sliceL (extractPre text) (findChar (extractPre text) '[').toNat
          ((rfindChar (extractPre text) ']').toNat + 1)) ∧
    (findChar (extractPre text) '{' < findChar (extractPre text) '[' →
      extract_json text =
        sliceL (extractPre text) (findChar (extractPre text) '{').toNat
          ((rfindChar (extractPre text) '}').toNat + 1)) := by
  obtain ⟨o, ho, hoi, _⟩ := findChar_le hi
  obtain ⟨a, ha, hak, _⟩ := findChar_le hk
  obtain ⟨e, he, hje, _⟩ := rfindChar_ge hj
  obtain ⟨b, hb, hmb, _⟩ := rfindChar_ge hm
  constructor
  · intro hlt
    rw [ha, ho] at hlt
    have hao : a < o := by exact_mod_cast hlt
    have hslice := extractChoose_arr ha ho hb hao (by omega)
    rw [ha, hb]
    have h1 : ((a : Int)).toNat = a := by omega
    have h2 : ((b : Int)).toNat = b := by omega
    rw [h1, h2]
    exact hslice
  · intro hlt
    rw [ha, ho] at hlt
    have hoa : o < a := by exact_mod_cast hlt
    have hslice := extractChoose_obj ha ho he hoa (by omega)
    rw [ho, he]
    have h1 : ((o : Int)).toNat = o := by omega
    have h2 : ((e : Int)).toNat = e := by omega
    rw [h1, h2]
    exact hslice

/-- C6 witness: on `"x [1] y {2}"` the array opens first, so the array
span `"[1]"` is extracted even though a complete object follows. -/
theorem extract_json_earliest_bracket_witness :
    extract_json ("x [1] y \x7b2\x7d".data) = "[1]".data := by
  have h := (extract_json_earliest_bracket ("x [1] y \x7b2\x7d".data) 8 10 2 4
    (by omega) (by omega) (by decide) (by decide) (by decide) (by decide)).1 (by decide)
  exact h.trans (by decide)

/-- C10 (implicit): when the earlier-opening bracket type has no closer
at any later position, `_extract_json` returns the fence-stripped,
whitespace-trimmed text in its entirety; it never falls back to the
other bracket type, even when that one forms a complete pair later. -/
theorem extract_json_unclosed_earliest (text : List Char) :
    (∀ a : Nat, findChar (extractPre text) '[' = (a : Int) →
      (findChar (extractPre text) '{' = -1 ∨
        findChar (extractPre text) '[' < findChar (extractPre text) '{') →
      (∀ p : Nat, a < p → (extractPre text).get? p ≠ some ']') →
      extract_json text = extractPre text) ∧
    (∀ o : Nat, findChar (extractPre text) '{' = (o : Int) →
      (findChar (extractPre text) '[' = -1 ∨
        findChar (extractPre text) '{' < findChar (extractPre text) '[') →
      (∀ p : Nat, o < p → (extractPre text).get? p ≠ some '}') →
      extract_json text = extractPre text) := by
  constructor
  · intro a ha hobj hnone
    exact extractChoose_arr_noclose ha hobj hnone
  · intro o ho harr hnone
    exact extractChoose_obj_noclose ho harr hnone

theorem char_toNat_ofNat {n : Nat} (h : n.isValidChar) : (Char.ofNat n).toNat = n := by
  simp [Char.ofNat, h, Char.ofNatAux, Char.toNat, UInt32.toNat]

theorem lowerAscii_ne {y c : Char} (hy : y ≠ c) (hc : c.toNat < 97 ∨ 122 < c.toNat) :
    lowerAscii y ≠ c := by
  unfold lowerAscii
  by_cases h : 'A' ≤ y ∧ y ≤ 'Z'
  · rw [if_pos h]
    intro heq
    have hv : (y.toNat + 32).isValidChar := by
      have h1 : 65 ≤ y.toNat := h.1
      have h2 : y.toNat ≤ 90 := h.2
      left
      omega
    have := congrArg Char.toNat heq
    rw [char_toNat_ofNat hv] at this
    have h1 : 65 ≤ y.toNat := h.1
    have h2 : y.toNat ≤ 90 := h.2
    omega
  · rw [if_neg h]
    exact hy

theorem containsSub_head_ne {hay : List Char} {c : Char} (pat : List Char)
    (h : ∀ x ∈ hay, x ≠ c) : containsSub hay (c :: pat) = false := by
  induction hay with
  | nil => rfl
  | cons x rest ih =>
    unfold containsSub
    have hx : x ≠ c := h x (by simp)
    have hlw : leadsWith (c :: pat) (x :: rest) = false := by
      simp [leadsWith]
      intro hcx
      exact absurd hcx.symm hx
    rw [hlw]
    simp only [Bool.false_or]
    exact ih (fun z hz => h z (by simp [hz]))

theorem quotedSpansGo_eq_nil {l : List Char} (h : ∀ x ∈ l, isOpenerQ x = false) :
    ∀ fuel, quotedSpansGo fuel l = [] := by
  induction l with
  | nil => intro fuel; cases fuel <;> rfl
  | cons c rest ih =>
    intro fuel
    cases fuel with
    | zero => rfl
    | succ f =>
      have hc : isOpenerQ c = false := h c (by simp)
      simp only [quotedSpansGo, hc, Bool.false_eq_true, if_false]
      exact ih (fun x hx => h x (by simp [hx])) f

theorem splitLinesGo_no_breaks {l : List Char}
    (h : ∀ x ∈ l, x ≠ '\n' ∧ x ≠ '\r' ∧ x ≠ '\x0b' ∧ x ≠ '\x0c') :
    ∀ fuel cur, l.length < fuel →
      splitLinesGo fuel cur l = if cur.isEmpty ∧ l.isEmpty then [] else [cur.reverse ++ l] := by
  induction l with
  | nil =>
    intro fuel cur _
    cases fuel <;> simp [splitLinesGo]
  | cons c rest ih =>
    intro fuel cur hfuel
    cases fuel with
    | zero => omega
    | succ f =>
      obtain ⟨hn, hr, hv, hf⟩ := h c (by simp)
      have hrec := ih (fun x hx => h x (by simp [hx])) f (c :: cur) (by simp at hfuel ⊢; omega)
      simp only [splitLinesGo, if_neg hr, if_neg (by tauto : ¬(c = '\n' ∨ c = '\x0b' ∨ c = '\x0c'))]
      rw [hrec]
      simp

theorem stripBoth_sublist (p : Char → Bool) (l : List Char) : (stripBoth p l).Sublist l := by
  unfold stripBoth
  have h1 : (l.dropWhile p).Sublist l := (List.dropWhile_suffix p).sublist
  have h2 : ((l.dropWhile p).reverse.dropWhile p).Sublist (l.dropWhile p).reverse :=
    (List.dropWhile_suffix p).sublist
  have h3 := h2.reverse
  rw [List.reverse_reverse] at h3
  exact h3.trans h1

/-- Cleaning a text that is already in the cleaner's normal form — a
nonempty single-line paragraph without quote or line-break characters,
stable under whitespace-stripping, delimiter-stripping and whitespace
collapsing, not opening with a brace, inside the 40-150 word band, not
instruction-like and not ending in a colon — returns it unchanged: the
JSON phase does not fire and the paragraph is accepted as the first
candidate. -/
theorem clean_intro_noop (o : List Char)
    (h0 : pyStrip o = o)
    (h1 : stripChars candStripSet o = o)
    (h2 : collapseWs o = o)
    (hchars : ∀ x ∈ o, x ≠ '"' ∧ x ≠ '“' ∧ x ≠ '”' ∧ x ≠ '\n' ∧ x ≠ '\r' ∧ x ≠ '\x0b' ∧ x ≠ '\x0c')
    (hbrace : leadsWith ("\x7b".data) o = false)
    (hwc : 40 ≤ wordCount o ∧ wordCount o ≤ 150)
    (hinstr : isInstruction o = false)
    (hcolon : endsWith ([':']) o = false) :
    clean_intro o = o := by
  have hne : o ≠ [] := by
    intro hnil
    rw [hnil] at hwc
    simp [wordCount, countWordsGo] at hwc
  have hoe : o.isEmpty = false := by
    cases o with
    | nil => exact absurd rfl hne
    | cons _ _ => rfl
  have hquote_low : ∀ x ∈ lowerL o, x ≠ '"' := by
    intro x hx
    obtain ⟨y, hy, rfl⟩ := List.mem_map.mp hx
    exact lowerAscii_ne (hchars y hy).1 (Or.inl (by decide))
  have hp1 : cleanPhase1 o = o := by
    unfold cleanPhase1
    rw [if_neg]
    rintro (h | h | h)
    · rw [hbrace] at h
      exact absurd h (by simp)
    · rw [(rfl : ("\"intro\"".data) = '"' :: "intro\"".data),
        containsSub_head_ne _ hquote_low] at h
      exact absurd h (by simp)
    · rw [(rfl : ("\"content\"".data) = '"' :: "content\"".data),
        containsSub_head_ne _ hquote_low] at h
      exact absurd h (by simp)
  have hq : quotedSpans o = [] := by
    unfold quotedSpans
    exact quotedSpansGo_eq_nil
      (by
        intro x hx
        have hc := hchars x hx
        simp [isOpenerQ]
        exact ⟨hc.1, hc.2.1⟩) _
  have hl : splitLines o = [o] := by
    unfold splitLines
    rw [splitLinesGo_no_breaks
      (by
        intro x hx
        have hc := hchars x hx
        exact ⟨hc.2.2.2.1, hc.2.2.2.2.1, hc.2.2.2.2.2.1, hc.2.2.2.2.2.2⟩) _ _ (by omega)]
    simp [hoe]
  have hcand : cleanCandidates o = [o] := by
    unfold cleanCandidates
    rw [hq, hl]
    simp [h0, hne]
  have hnorm : normalizeCand o = o := by
    unfold normalizeCand
    rw [h1, h2]
  unfold clean_intro
  rw [if_neg (by simp [hoe])]
  simp only [h0, hp1, hcand]
  unfold candLoop
  simp only [hnorm]
  rw [if_neg (by simp [hoe])]
  rw [if_pos ⟨hwc.1, hwc.2, by simp [hinstr], by simp [hcolon]⟩]

/-- C7 (amended): the prose cleaner is not idempotent on all inputs
(see the counterexample), but it is idempotent on every input whose
first cleaning is already in normal form: whenever `clean_intro t` is
whitespace- and delimiter-strip stable, whitespace-collapsed, free of
quote and line-break characters, does not open with a brace, sits in
the 40-150 word band, is not instruction-like and does not end in a
colon, a second application returns it unchanged. -/
theorem clean_intro_idempotent_on_clean (t : List Char)
    (h0 : pyStrip (clean_intro t) = clean_intro t)
    (h1 : stripChars candStripSet (clean_intro t) = clean_intro t)
    (h2 : collapseWs (clean_intro t) = clean_intro t)
    (hchars : ∀ x ∈ clean_intro t,
      x ≠ '"' ∧ x ≠ '“' ∧ x ≠ '”' ∧ x ≠ '\n' ∧ x ≠ '\r' ∧ x ≠ '\x0b' ∧ x ≠ '\x0c')
    (hbrace : leadsWith ("\x7b".data) (clean_intro t) = false)
    (hwc : 40 ≤ wordCount (clean_intro t) ∧ wordCount (clean_intro t) ≤ 150)
    (hinstr : isInstruction (clean_intro t) = false)
    (hcolon : endsWith ([':']) (clean_intro t) = false) :
    clean_intro (clean_intro t) = clean_intro t :=
  clean_intro_noop (clean_intro t) h0 h1 h2 hchars hbrace hwc hinstr hcolon

set_option maxRecDepth 10000 in
/-- C7 witness: a plain 45-word paragraph cleans to itself, satisfies
every normal-form condition, and a second cleaning is a no-op. -/
theorem clean_intro_idempotent_on_clean_witness :
    clean_intro (clean_intro ((String.intercalate " " (List.replicate 45 "alpha")).data)) =
      clean_intro ((String.intercalate " " (List.replicate 45 "alpha")).data) :=
  clean_intro_idempotent_on_clean _ (by decide) (by decide) (by decide) (by decide)
    (by decide) (by decide) (by decide) (by decide)

set_option maxRecDepth 10000 in
/-- C7 counterexample: the claim `clean(clean(t)) = clean(t)` fails.
For the input `'" q w e r t " mono×40 " z x c'` the first cleaning
strips the leading quote and returns the whole line (48 words), whose
interior quotes then pair up; the second cleaning extracts the quoted
40-word span, a different string. -/
theorem clean_intro_not_idempotent :
    clean_intro (clean_intro (("\" q w e r t \" " ++
        String.intercalate " " (List.replicate 40 "mono") ++ " \" z x c").data)) ≠
      clean_intro (("\" q w e r t \" " ++
        String.intercalate " " (List.replicate 40 "mono") ++ " \" z x c").data) := by
  decide

/-- C10 witness: in `"a [ b {1}"` the `[` opens before the `{` and has
no `]` anywhere after it, so the whole trimmed text is returned and the
complete object pair is not extracted. -/
theorem extract_json_unclosed_earliest_witness :
    extract_json ("a [ b \x7b1\x7d".data) = "a [ b \x7b1\x7d".data := by
  have hpre : extractPre ("a [ b \x7b1\x7d".data) = "a [ b \x7b1\x7d".data := by decide
  have h := (extract_json_unclosed_earliest ("a [ b \x7b1\x7d".data)).1 2
    (by rw [hpre]; decide) (by rw [hpre]; decide)
    (by
      intro p hp hcon
      rw [hpre] at hcon
      have hmem : ']' ∈ "a [ b \x7b1\x7d".data := List.get?_mem hcon
      exact absurd hmem (by decide))
  exact h.trans hpre

/-- C1: when the primary is healthy and its response, stripped, opens a
JSON bracket without the matching closer, the router treats it as a
primary failure: the failure counter is bumped, the primary-health flag
is cleared (recorded in `markedUnhealthy`), and the secondary backend is
called for the same request.  The router contains no JSON decoding at
all (`UnifiedAIClient.generate` only inspects the first and last
non-whitespace characters), so the text is never JSON-decoded. -/
theorem router_truncated_json_falls_back (st : RouterState) (o : RouterOracle) (r : List Char)
    (hh : st.chatZaiHealthy = true) (hp : o.primary = Except.ok r)
    (hbad : (leadsWith ("\x7b".data) (pyStrip r) = true ∧ endsWith ("\x7d".data) (pyStrip r) = false) ∨
      (leadsWith ("[".data) (pyStrip r) = true ∧ endsWith ("]".data) (pyStrip r) = false)) :
    (UnifiedAIClient.generate st o).2.2.markedUnhealthy = true ∧
    (UnifiedAIClient.generate st o).2.2.secondaryCalled = true ∧
    (UnifiedAIClient.generate st o).2.1.stats.chatZaiFailed = st.stats.chatZaiFailed + 1 := by
  have hij : incompleteJson r = true := by
    unfold incompleteJson
    rcases hps : pyStrip r with _ | ⟨c, tl⟩
    · rcases hbad with ⟨h1, _⟩ | ⟨h1, _⟩ <;> rw [hps] at h1 <;> simp [leadsWith] at h1
    · rcases hbad with ⟨h1, h2⟩ | ⟨h1, h2⟩ <;> rw [hps] at h1 h2
      · have hc : '{' = c := by simpa [leadsWith] using h1
        subst hc
        rw [if_pos (Or.inl (by simp [leadsWith]))]
        rw [if_pos ⟨by simp [leadsWith], by simp [h2]⟩]
      · have hc : '[' = c := by simpa [leadsWith] using h1
        subst hc
        rw [if_pos (Or.inr (by simp [leadsWith]))]
        rw [if_neg (by simp [leadsWith])]
        rw [if_pos ⟨by simp [leadsWith], by simp [h2]⟩]
  rcases hs : o.secondary with e | rr <;>
    simp [UnifiedAIClient.generate, routerSecondary, hh, hp, hij, hs]

/-- C1 witness: the truncated object `'{"a":1'` from a healthy primary
marks it unhealthy, bumps the failure counter and routes to the
secondary. -/
theorem router_truncated_json_falls_back_witness :
    (UnifiedAIClient.generate c1State c1Oracle).2.2.markedUnhealthy = true ∧
    (UnifiedAIClient.generate c1State c1Oracle).2.2.secondaryCalled = true ∧
    (UnifiedAIClient.generate c1State c1Oracle).2.1.stats.chatZaiFailed =
      c1State.stats.chatZaiFailed + 1 :=
  router_truncated_json_falls_back c1State c1Oracle ("\x7b\"a\":1".data) rfl rfl
    (Or.inl (by decide))

/-- C3: a request entering with the primary-health flag false never
invokes the primary and goes straight to the secondary; and whenever a
secondary call is made and succeeds, the primary's health is re-probed
and the probe's result is stored in the flag for subsequent requests. -/
theorem router_unhealthy_skips_primary_and_reprobes (st : RouterState) (o : RouterOracle) :
    (st.chatZaiHealthy = false →
      (UnifiedAIClient.generate st o).2.2.primaryCalled = false ∧
      (UnifiedAIClient.generate st o).2.2.secondaryCalled = true) ∧
    (∀ r, o.secondary = Except.ok r →
      (UnifiedAIClient.generate st o).2.2.secondaryCalled = true →
      (UnifiedAIClient.generate st o).2.1.chatZaiHealthy = o.healthAfter ∧
      (UnifiedAIClient.generate st o).2.2.healthCheckCalled = true) := by
  constructor
  · intro h
    rcases hs : o.secondary with e | r <;>
      simp [UnifiedAIClient.generate, routerSecondary, h, hs]
  · intro r hs hc
    by_cases hh : st.chatZaiHealthy
    · rcases hp : o.primary with e | resp
      · simp [UnifiedAIClient.generate, routerSecondary, hh, hp, hs]
      · by_cases hij : incompleteJson resp
        · simp [UnifiedAIClient.generate, routerSecondary, hh, hp, hij, hs]
        · simp [UnifiedAIClient.generate, routerSecondary, hh, hp, hij] at hc
    · simp [UnifiedAIClient.generate, routerSecondary, hh, hs]

/-- C3 witness: with the primary marked unhealthy and a successful
secondary call, the primary is skipped and the re-probed health value
is stored. -/
theorem router_unhealthy_skips_primary_and_reprobes_witness :
    ((UnifiedAIClient.generate c3State c3Oracle).2.2.primaryCalled = false ∧
      (UnifiedAIClient.generate c3State c3Oracle).2.2.secondaryCalled = true) ∧
    ((UnifiedAIClient.generate c3State c3Oracle).2.1.chatZaiHealthy = c3Oracle.healthAfter ∧
      (UnifiedAIClient.generate c3State c3Oracle).2.2.healthCheckCalled = true) := by
  have h := router_unhealthy_skips_primary_and_reprobes c3State c3Oracle
  exact ⟨h.1 rfl, h.2 ("fallback text".data) rfl (h.1 rfl).2⟩

theorem collectParallel_error (pre : List (List Char × Except (List Char) PyJson)) :
    ∀ acc name e post, (∀ x ∈ pre, ∃ v, x.2 = Except.ok v) →
      collectParallel acc (pre ++ (name, Except.error e) :: post) = Except.error e := by
  induction pre with
  | nil => intro acc name e post _; rfl
  | cons x rest ih =>
    intro acc name e post hok
    obtain ⟨v, hv⟩ := hok x (by simp)
    obtain ⟨nm, out⟩ := x
    simp only at hv
    subst hv
    simp only [List.cons_append, collectParallel]
    exact ih _ name e post (fun z hz => hok z (by simp [hz]))

/-- C2: if any task of the parallel batch fails terminally (its outcome
in completion order is an error), the whole run raises that task's
error: the results of previously completed sibling tasks, although
collected, are discarded and no mapping reaches the caller. -/
theorem run_batch_failure_discards_results (intro : List Char)
    (pre post : List (List Char × Except (List Char) PyJson))
    (name : List Char) (e : List Char) (tk : Except (List Char) PyJson)
    (hok : ∀ x ∈ pre, ∃ v, x.2 = Except.ok v) :
    generate_all_content_parallel (Except.ok intro) (pre ++ (name, Except.error e) :: post) tk =
      Except.error e := by
  have hcol := collectParallel_error pre
    { emptyResults with intro := some intro } name e post hok
  simp [generate_all_content_parallel, hcol]

/-- C2 witness: `review_batch_3` raising after a completed `badges`
task makes the whole batch raise; the `badges` result is discarded. -/
theorem run_batch_failure_discards_results_witness :
    generate_all_content_parallel (Except.ok ("the intro".data))
      ([("badges".data, Except.ok (PyJson.obj []))] ++
        ("review_batch_3".data, Except.error ("ExhaustedRetriesError".data)) ::
        [("faqs".data, Except.ok (PyJson.arr []))])
      (Except.ok (PyJson.arr [])) = Except.error ("ExhaustedRetriesError".data) :=
  run_batch_failure_discards_results _ _ _ _ _ _
    (by
      intro x hx
      simp at hx
      subst hx
      exact ⟨PyJson.obj [], rfl⟩)

/-- C4: `classify_keyword` is total on every behaviour of the
underlying generation call — its result's type is always one of
`review`, `info`, `skip` — and whenever the call raises, or the
response contains no digit `1`, `2` or `3`, the result is `skip`.  The
Lean function being total is the image of the Python code catching
every exception. -/
theorem classify_keyword_failsafe (o : Except (List Char) (List Char)) :
    (classify_keyword o = "review".data ∨ classify_keyword o = "info".data ∨
      classify_keyword o = "skip".data) ∧
    (∀ e, o = Except.error e → classify_keyword o = "skip".data) ∧
    (∀ r, o = Except.ok r → (∀ c ∈ r, c ≠ '1' ∧ c ≠ '2' ∧ c ≠ '3') →
      classify_keyword o = "skip".data) := by
  refine ⟨?_, ?_, ?_⟩
  · cases o with
    | error e => right; right; rfl
    | ok r =>
      rcases hf : (pyStrip r).find? (fun c => c == '1' || c == '2' || c == '3') with _ | c
      · right; right; simp [classify_keyword, hf]
      · have hpred := List.find?_some hf
        simp only [Bool.or_eq_true, beq_iff_eq] at hpred
        rcases hpred with (rfl | rfl) | rfl
        · left; simp [classify_keyword, hf]
        · right; left; simp [classify_keyword, hf]
        · right; right; simp [classify_keyword, hf]
  · rintro e rfl; rfl
  · rintro r rfl hno
    have hnone : (pyStrip r).find? (fun c => c == '1' || c == '2' || c == '3') = none := by
      apply List.find?_eq_none.mpr
      intro c hc
      have hcr : c ∈ r := (stripBoth_sublist isPyWs r).subset hc
      have h3 := hno c hcr
      simp [h3.1, h3.2.1, h3.2.2]
    simp [classify_keyword, hnone]

/-- C4 witness: a raised generation call (as the shipped `min_length`
`TypeError` always produces) yields `skip`, and so does a digit-free
response. -/
theorem classify_keyword_failsafe_witness :
    ((classify_keyword (Except.error ("TypeError".data)) = "review".data ∨
      classify_keyword (Except.error ("TypeError".data)) = "info".data ∨
      classify_keyword (Except.error ("TypeError".data)) = "skip".data) ∧
      classify_keyword (Except.error ("TypeError".data)) = "skip".data) ∧
    classify_keyword (Except.ok ("no answer digits here".data)) = "skip".data := by
  refine ⟨⟨(classify_keyword_failsafe _).1, (classify_keyword_failsafe _).2.1 _ rfl⟩, ?_⟩
  exact (classify_keyword_failsafe _).2.2 _ rfl (by decide)

theorem updAssoc_fresh (acc : List (List Char × PyJson)) (kv : List Char × PyJson)
    (h : kv.1 ∉ acc.map Prod.fst) : updAssoc acc kv = acc ++ [kv] := by
  unfold updAssoc
  rw [if_neg]
  simp only [List.any_eq_true, not_exists, not_and]
  intro x hx
  simp only [beq_iff_eq]
  intro hxk
  exact h (hxk ▸ List.mem_map_of_mem Prod.fst hx)

theorem dictUpdate_nil_append (l : List (List Char × PyJson)) :
    ∀ acc, ((acc ++ l).map Prod.fst).Nodup → dictUpdate acc l = acc ++ l := by
  induction l with
  | nil => intro acc _; simp [dictUpdate]
  | cons kv rest ih =>
    intro acc hnd
    have hfresh : kv.1 ∉ acc.map Prod.fst := by
      have h2 : (acc.map Prod.fst ++ kv.1 :: rest.map Prod.fst).Nodup := by
        simpa using hnd
      intro hmem
      have hd := (List.nodup_append.mp h2).2.2
      exact hd hmem (List.mem_cons_self _ _)
    have step : dictUpdate acc (kv :: rest) = dictUpdate (acc ++ [kv]) rest := by
      simp [dictUpdate, updAssoc_fresh acc kv hfresh]
    rw [step, ih (acc ++ [kv]) (by simpa using hnd)]
    simp

theorem map_find?_self {products : List Product} {keyword : List Char} :
    ∀ p ∈ products, (products.map Product.asin).Nodup →
      (products.map (fun q => (q.asin, fallbackReview keyword q))).find?
        (fun kv => kv.1 == p.asin) = some (p.asin, fallbackReview keyword p) := by
  induction products with
  | nil => intro p hp; simp at hp
  | cons q rest ih =>
    intro p hp hnd
    rcases List.mem_cons.mp hp with rfl | hp'
    · simp only [List.map_cons]
      rw [List.find?_cons_of_pos _ (by simp)]
    · have hqp : q.asin ≠ p.asin := by
        intro he
        have : p.asin ∈ rest.map Product.asin := List.mem_map_of_mem Product.asin hp'
        exact (List.nodup_cons.mp (by simpa using hnd)).1 (he ▸ this)
      simp only [List.map_cons]
      rw [List.find?_cons_of_neg _ (by simpa using hqp)]
      exact ih p hp' (List.nodup_cons.mp (by simpa using hnd)).2

/-- C5: when all three attempts of the batched review generation fail,
`generate_product_reviews_batch` does not raise but returns a mapping
with exactly one entry per supplied product (for distinct product
identifiers, as a mapping keyed by identifier presumes), keyed by the
product's `asin`; each entry's description is the deterministic
template over the product's own brand and feature fields and its pros
and cons are the fixed placeholder lists. -/
theorem reviews_batch_fallback (products : List Product) (keyword : List Char)
    (attempts : List (Except (List Char) (List Char)))
    (_hne : products ≠ [])
    (hfail : ∀ a ∈ attempts, batchAttempt a = none)
    (hnd : (products.map Product.asin).Nodup) :
    (generate_product_reviews_batch products keyword attempts).map Prod.fst =
      products.map Product.asin ∧
    ∀ p ∈ products,
      (generate_product_reviews_batch products keyword attempts).find?
          (fun kv => kv.1 == p.asin) =
        some (p.asin, PyJson.obj
          [("description".data, PyJson.str ("This ".data ++ p.brand.getD [] ++
              " product offers ".data ++
              (if p.features.isEmpty then "great features".data
               else List.intercalate (" and ".data) (p.features.take 3)) ++
              ". A solid choice for ".data ++ keyword ++ ".".data)),
           ("pros".data, PyJson.arr
             [PyJson.str ("Quality build".data), PyJson.str ("Good features".data),
              PyJson.str ("Reliable performance".data)]),
           ("cons".data, PyJson.arr
             [PyJson.str ("Price may vary".data),
              PyJson.str ("Limited availability".data)])]) := by
  have hnone : (attempts.take 3).findSome? batchAttempt = none := by
    rw [List.findSome?_eq_none_iff]
    intro a ha
    exact hfail a (List.take_subset 3 attempts ha)
  have hkeys : ((products.map (fun p => (p.asin, fallbackReview keyword p))).map
      Prod.fst).Nodup := by
    simpa [List.map_map, Function.comp] using hnd
  have hdict : generate_product_reviews_batch products keyword attempts =
      products.map (fun p => (p.asin, fallbackReview keyword p)) := by
    unfold generate_product_reviews_batch
    rw [hnone]
    have := dictUpdate_nil_append
      (products.map (fun p => (p.asin, fallbackReview keyword p))) []
      (by simpa using hkeys)
    simpa using this
  constructor
  · rw [hdict]
    simp [List.map_map, Function.comp]
  · intro p hp
    rw [hdict]
    exact map_find?_self p hp hnd

/-- C5 witness: two products, three failed attempts — the fallback
mapping has exactly their identifiers as keys. -/
theorem reviews_batch_fallback_witness :
    (generate_product_reviews_batch
        [{ asin := "B01".data, title := "T1".data, brand := some ("Acme".data),
           price := none, features := ["f1".data, "f2".data, "f3".data, "f4".data] },
         { asin := "B02".data, title := "T2".data, brand := none, price := none,
           features := [] }] ("garden set".data)
        [Except.error ("boom".data), Except.error ("boom".data),
         Except.error ("boom".data)]).map Prod.fst = ["B01".data, "B02".data] := by
  have h := (reviews_batch_fallback
    [{ asin := "B01".data, title := "T1".data, brand := some ("Acme".data),
       price := none, features := ["f1".data, "f2".data, "f3".data, "f4".data] },
     { asin := "B02".data, title := "T2".data, brand := none, price := none,
       features := [] }] ("garden set".data)
    [Except.error ("boom".data), Except.error ("boom".data), Except.error ("boom".data)]
    (by simp)
    (by
      intro a ha
      simp at ha
      rcases ha with rfl | rfl
      all_goals rfl)
    (by decide)).1
  simpa using h

/-- C8: as shipped, `select_category` returns 0 for every backend
behaviour — even on the spec's example response with a valid category
id 15 — because the call passes `min_length=1` to
`UnifiedAIClient.generate`, which has no such parameter, so a
`TypeError` is raised and swallowed before any parsing happens.  The
parsing logic written below the call (`selectCategoryParse`) would
return 15 on that response and 0 when no integer matches, as the claim
describes. -/
theorem select_category_always_zero :
    (∀ b : Except (List Char) (List Char),
      select_category ("coffee maker".data) [⟨15, "Kitchen".data⟩] b = 0) ∧
    selectCategoryParse ("Here is your answer: 15 is the best fit".data)
      [⟨15, "Kitchen".data⟩] = 15 ∧
    selectCategoryParse ("Here is your answer: 99".data) [⟨15, "Kitchen".data⟩] = 0 :=
  ⟨fun _ => rfl, by decide, by decide⟩

/-- C9: with three credentials of which the first two fail with auth
errors and the third succeeds, one `generate` call returns the
generated text, records both failed credentials in the failed-key set,
persists the third credential's index (2, the third key) to the cache
file, and any later rotation skips the failed keys (it lands on index
2 again). -/
theorem cerebras_rotation_scenario :
    (CerebrasClient.generate c9Oracle 3 c9Start).1 = Except.ok ("generated text".data) ∧
    (CerebrasClient.generate c9Oracle 3 c9Start).2.cacheFile = some 2 ∧
    (CerebrasClient.generate c9Oracle 3 c9Start).2.failedKeys.contains 0 = true ∧
    (CerebrasClient.generate c9Oracle 3 c9Start).2.failedKeys.contains 1 = true ∧
    rotate_key 3 (CerebrasClient.generate c9Oracle 3 c9Start).2 =
      some { keyIndex := 2, failedKeys := [1, 0], cacheFile := some 2 } :=
  ⟨rfl, rfl, rfl, rfl, rfl⟩

end AmzPlugin
